import Mathlib

/-!
Shallow embedding of api2go's `api.go`: pagination query parameters and
navigation-link calculation, index/create/update/linked-resource dispatch,
and resource registration.  Go machine integers are modelled as `Nat` with
explicit reduction modulo `2 ^ 64` at every operation where Go's `uint64`
arithmetic can wrap; a runtime panic (integer division by zero) is a
distinguished result constructor.
-/

/-- Modulus of Go's `uint64` arithmetic. -/
def U64 : Nat := 2 ^ 64

/-- Embeds Go's `strconv.ParseUint(s, 10, 64)`: succeeds exactly on
non-empty all-digit strings whose value fits in 64 bits (base 10 accepts
no sign and no radix markers; out-of-range values are an error). -/
def parseUint10 (s : String) : Option Nat :=
  if s.data.isEmpty then none
  else if s.data.all (fun c => c.isDigit) then
    let v := s.data.foldl (fun acc c => acc * 10 + (c.toNat - 48)) 0
    if v < U64 then some v else none
  else none

/-- Embeds the `paginationQueryParams` struct: the four raw query-parameter
strings; Go's `url.Values.Get` returns `""` when the key is absent. -/
structure paginationQueryParams where
  number : String
  size : String
  offset : String
  limit : String
  deriving DecidableEq

/-- Embeds `paginationQueryParams.isValid`. -/
def paginationQueryParams.isValid (p : paginationQueryParams) : Bool :=
  if p.number = "" ∧ p.size = "" ∧ p.offset = "" ∧ p.limit = "" then false
  else if p.number ≠ "" ∧ p.size ≠ "" ∧ p.offset = "" ∧ p.limit = "" then true
  else if p.number = "" ∧ p.size = "" ∧ p.offset ≠ "" ∧ p.limit ≠ "" then true
  else false

/-- Capability flags of a bound data source: which of the optional
interfaces (`FindAll`, `FindMultiple`, `PaginatedFindAll`) the concrete
value implements.  The Go code detects them by type assertion at call
time; the mandatory CRUD methods are always present. -/
structure DataSource where
  hasFindAll : Bool
  hasFindMultiple : Bool
  hasPaginatedFindAll : Bool
  deriving DecidableEq

/-- Fields of the `Error` document struct as used in `api.go`
(`Error{Status: ..., Title: ..., Detail: ...}`); the spec calls this
value type ApiError { status, title, detail }. -/
structure ApiError where
  Status : String
  Title : String
  Detail : String
  deriving DecidableEq

/-- Data-source calls a handler can make, in the order they occur. -/
inductive SrcCall where
  | findOne
  | create
  | update
  | delete
  | findAllCall
  deriving DecidableEq

/-- Observable outcome of a handler.  Response writing through the codec is
abstracted: each constructor records which branch of the Go handler
returned, together with the error payload the Go code constructs there
(`httpError` for `NewHTTPError(_, msg, status)`, `errorDoc` for
`respondWith(Error{...}, status)`, `goError` for a plain `errors.New`). -/
inductive HandlerResult where
  | paginatedOk
  | findAllOk
  | findAllInvoked (targetName : String) (queryKey : String) (queryValue : List String)
  | httpError (msg : String) (status : Nat)
  | errorDoc (e : ApiError) (status : Nat)
  | goError (msg : String)
  | srcError
  | created (id : String)
  | updated
  deriving DecidableEq

/-- Embeds the dispatch performed by `resource.handleIndex`: a request with
valid pagination parameters requires the `PaginatedFindAll` capability,
any other request requires `FindAll`; a missing capability yields the
corresponding 404 `NewHTTPError`.  The successful data-source call and
response writing are abstracted as `paginatedOk` / `findAllOk`. -/
def handleIndex (p : paginationQueryParams) (src : DataSource) : HandlerResult :=
  if p.isValid then
    if src.hasPaginatedFindAll then .paginatedOk
    else .httpError "Resource does not implement the PaginatedFindAll interface" 404
  else
    if src.hasFindAll then .findAllOk
    else .httpError "Resource does not implement the FindAll interface" 404

/-- Navigation links produced by `getLinks`.  The Go `map[string]string`
result only ever receives the four keys first/prev/next/last, modelled as
optional fields; each present field records the value the code sets for
the replaced pagination parameter (the cloning of the remaining query
parameters into the final URL string is abstracted away). -/
structure NavLinks where
  first : Option String := none
  prev : Option String := none
  next : Option String := none
  last : Option String := none
  deriving DecidableEq

/-- Outcome of `getLinks`: a link map, a `strconv.ParseUint` error (the
caller discards the partially built map and propagates the error), or the
runtime panic raised by Go on integer division by zero. -/
inductive GetLinksResult where
  | links (result : NavLinks)
  | parseError
  | divideByZero
  deriving DecidableEq

/-- Embeds `paginationQueryParams.getLinks`.  `count` models the Go `uint`
total (a value below `2 ^ 64`); all `uint64` operations reduce modulo
`U64` exactly where Go's arithmetic can wrap.  Note the code branches on
the raw strings `p.number ≠ "1"` / `p.offset ≠ "0"`, not on the parsed
values, and that `uint64(count) / size` panics when `size = 0`. -/
def paginationQueryParams.getLinks (p : paginationQueryParams) (count : Nat) :
    GetLinksResult :=
  if p.number ≠ "" then
    match parseUint10 p.number with
    | none => .parseError
    | some number =>
      let result : NavLinks :=
        if p.number ≠ "1" then
          { first := some "1", prev := some (Nat.repr ((number + U64 - 1) % U64)) }
        else {}
      match parseUint10 p.size with
      | none => .parseError
      | some size =>
        if size = 0 then .divideByZero
        else
          let totalPages := count / size + (if count % size ≠ 0 then 1 else 0)
          if number ≠ totalPages then
            .links { result with
                       next := some (Nat.repr ((number + 1) % U64)),
                       last := some (Nat.repr totalPages) }
          else .links result
  else
    match parseUint10 p.offset with
    | none => .parseError
    | some offset =>
      match parseUint10 p.limit with
      | none => .parseError
      | some limit =>
        let result : NavLinks :=
          if p.offset ≠ "0" then
            { first := some "0",
              prev := some (Nat.repr (if limit > offset then 0 else offset - limit)) }
          else {}
        if (offset + limit) % U64 < count then
          .links { result with
                     next := some (Nat.repr ((offset + limit) % U64)),
                     last := some (Nat.repr ((count + U64 - limit) % U64)) }
        else .links result

/-- Values produced by `parseUint10` fit in 64 bits. -/
lemma parseUint10_lt {s : String} {n : Nat} (h : parseUint10 s = some n) : n < U64 := by
  unfold parseUint10 at h
  split at h
  · exact Option.noConfusion h
  · split at h
    · dsimp only at h
      split at h
      · cases h; assumption
      · exact Option.noConfusion h
    · exact Option.noConfusion h

/-- A successfully parsed pagination parameter is non-empty. -/
lemma parseUint10_ne_empty {s : String} {n : Nat} (h : parseUint10 s = some n) :
    s ≠ "" := by
  intro he
  rw [he, show parseUint10 "" = none from rfl] at h
  exact Option.noConfusion h

/-- Go's wrapped `uint64` decrement agrees with truncated subtraction on
positive in-range values. -/
lemma u64_dec_eq {n : Nat} (h1 : 1 ≤ n) (h2 : n < U64) :
    (n + U64 - 1) % U64 = n - 1 := by
  have he : n + U64 - 1 = (n - 1) + U64 := by omega
  rw [he, Nat.add_mod_right, Nat.mod_eq_of_lt (by omega)]

/-- Go's wrapped `uint64` subtraction agrees with truncated subtraction
when no borrow occurs. -/
lemma u64_sub_eq {a b : Nat} (h1 : b ≤ a) (h2 : a < U64) :
    (a + U64 - b) % U64 = a - b := by
  have he : a + U64 - b = (a - b) + U64 := by omega
  rw [he, Nat.add_mod_right, Nat.mod_eq_of_lt (by omega)]

/-- The totalPages computation of `getLinks` (quotient plus one when a
remainder exists) is the ceiling of `count / s`. -/
lemma totalPages_eq_ceil (s count : Nat) (hs : 0 < s) :
    count / s + (if count % s ≠ 0 then 1 else 0) = (count + s - 1) / s := by
  have hrlt : count % s < s := Nat.mod_lt _ hs
  by_cases h0 : count % s = 0
  · rw [if_neg (by simp [h0])]
    obtain ⟨q, hq⟩ := Nat.dvd_of_mod_eq_zero h0
    subst hq
    rw [Nat.mul_div_cancel_left q hs, Nat.add_sub_assoc hs,
        Nat.mul_add_div hs, Nat.div_eq_of_lt (show s - 1 < s by omega)]
  · rw [if_pos h0]
    have hstep : count + s - 1 = s * (count / s + 1) + (count % s - 1) := by
      have hd : s * (count / s) + count % s = count := Nat.div_add_mod count s
      rw [Nat.mul_succ]
      generalize s * (count / s) = A at hd ⊢
      omega
    rw [hstep, Nat.mul_add_div hs, Nat.div_eq_of_lt (show count % s - 1 < s by omega),
        Nat.add_zero]

/-- Page/size branch of `getLinks`, written out per field: the first/prev
emission is decided by the raw string comparison `p.number ≠ "1"`, the
next/last emission by the numeric comparison with totalPages. -/
lemma getLinks_pageMode (pn ps : String) (n s count : Nat)
    (hpn : parseUint10 pn = some n) (hps : parseUint10 ps = some s) (hs0 : s ≠ 0) :
    paginationQueryParams.getLinks ⟨pn, ps, "", ""⟩ count =
      GetLinksResult.links
        { first := if pn = "1" then none else some "1",
          prev := if pn = "1" then none else some (Nat.repr ((n + U64 - 1) % U64)),
          next := if n = count / s + (if count % s ≠ 0 then 1 else 0) then none
                  else some (Nat.repr ((n + 1) % U64)),
          last := if n = count / s + (if count % s ≠ 0 then 1 else 0) then none
                  else some (Nat.repr (count / s + (if count % s ≠ 0 then 1 else 0))) } := by
  have hne : pn ≠ "" := parseUint10_ne_empty hpn
  by_cases hp1 : pn = "1"
  · subst hp1
    by_cases hnt : n = count / s + (if count % s = 0 then 0 else 1) <;>
      simp [paginationQueryParams.getLinks, hne, hpn, hps, hs0, hnt]
  · by_cases hnt : n = count / s + (if count % s = 0 then 0 else 1) <;>
      simp [paginationQueryParams.getLinks, hne, hpn, hps, hs0, hp1, hnt]

/-- Offset/limit branch of `getLinks`, written out per field: the
first/prev emission is decided by the raw string comparison
`p.offset ≠ "0"`, the next/last emission by the wrapped sum `o + l`. -/
lemma getLinks_offsetMode (po pl : String) (o l count : Nat)
    (hpo : parseUint10 po = some o) (hpl : parseUint10 pl = some l) :
    paginationQueryParams.getLinks ⟨"", "", po, pl⟩ count =
      GetLinksResult.links
        { first := if po = "0" then none else some "0",
          prev := if po = "0" then none
                  else some (Nat.repr (if o < l then 0 else o - l)),
          next := if (o + l) % U64 < count then some (Nat.repr ((o + l) % U64)) else none,
          last := if (o + l) % U64 < count then some (Nat.repr ((count + U64 - l) % U64))
                  else none } := by
  by_cases hp0 : po = "0"
  · subst hp0
    by_cases hlt : (o + l) % U64 < count <;>
      simp [paginationQueryParams.getLinks, hpo, hpl, hlt]
  · by_cases hlt : (o + l) % U64 < count <;>
      simp [paginationQueryParams.getLinks, hpo, hpl, hp0, hlt]

/-- C1 (amended): for a page/size request whose raw page[number] string is
"1" exactly when the parsed page number n is 1 (in particular any
canonical decimal string), with n ≥ 1, s ≥ 1, n + 1 < 2^64 and the uint
count below 2^64, getLinks emits first (number 1) and prev (number n-1)
iff n ≠ 1, and next (number n+1) and last (number totalPages) iff
n ≠ totalPages, where totalPages = ceil(count / s). -/
theorem pageSize_links_characterization
    (pn ps : String) (n s count : Nat)
    (hpn : parseUint10 pn = some n) (hone : pn = "1" ↔ n = 1)
    (hps : parseUint10 ps = some s)
    (hn : 1 ≤ n) (hs : 1 ≤ s) (hov : n + 1 < U64) (hcount : count < U64) :
    paginationQueryParams.getLinks ⟨pn, ps, "", ""⟩ count =
      GetLinksResult.links
        { first := if n = 1 then none else some "1",
          prev := if n = 1 then none else some (Nat.repr (n - 1)),
          next := if n = (count + s - 1) / s then none else some (Nat.repr (n + 1)),
          last := if n = (count + s - 1) / s then none
                  else some (Nat.repr ((count + s - 1) / s)) } := by
  have hnlt : n < U64 := parseUint10_lt hpn
  have hs0 : s ≠ 0 := by omega
  have h := getLinks_pageMode pn ps n s count hpn hps hs0
  rw [u64_dec_eq hn hnlt, Nat.mod_eq_of_lt hov, totalPages_eq_ceil s count hs] at h
  rw [h]
  by_cases h1 : n = 1
  · have hp : pn = "1" := hone.mpr h1
    simp [h1, hp]
  · have hp : pn ≠ "1" := fun hh => h1 (hone.mp hh)
    simp [h1, hp]

/-- Witness for C1 at the spec's example count=25, size=10, number=2:
first→1, prev→1, next→3, last→3. -/
theorem pageSize_links_characterization_witness :
    paginationQueryParams.getLinks ⟨"2", "10", "", ""⟩ 25 =
      GetLinksResult.links ⟨some "1", some "1", some "3", some "3"⟩ := by
  have h := pageSize_links_characterization "2" "10" 2 10 25
    (by decide) (by decide) (by decide) (by decide) (by decide) (by decide) (by decide)
  rw [h]; decide

/-- C1 counterexample: the raw string "01" parses to page number 1, yet
getLinks emits first and prev (prev with wrapped number 0), because the
code compares the raw string with "1"; the claim, quantified over parsed
n, requires no first/prev when n = 1. -/
theorem pageSize_links_noncanonical_counterexample :
    parseUint10 "01" = some 1 ∧
    paginationQueryParams.getLinks ⟨"01", "10", "", ""⟩ 25 =
      GetLinksResult.links ⟨some "1", some "0", some "2", some "3"⟩ := by
  exact ⟨by decide, by decide⟩

/-- C2 (amended): for an offset/limit request whose raw page[offset]
string is "0" exactly when the parsed offset o is 0 (in particular any
canonical decimal string), with o + l < 2^64 and the uint count below
2^64, getLinks emits first (offset 0) and prev (offset o - l if o ≥ l
else 0, clamped at zero) iff o ≠ 0, and next (offset o + l) and last
(offset count - l) iff o + l < count. -/
theorem offsetLimit_links_characterization
    (po pl : String) (o l count : Nat)
    (hpo : parseUint10 po = some o) (hzero : po = "0" ↔ o = 0)
    (hpl : parseUint10 pl = some l)
    (hov : o + l < U64) (hcount : count < U64) :
    paginationQueryParams.getLinks ⟨"", "", po, pl⟩ count =
      GetLinksResult.links
        { first := if o = 0 then none else some "0",
          prev := if o = 0 then none
                  else some (Nat.repr (if l ≤ o then o - l else 0)),
          next := if o + l < count then some (Nat.repr (o + l)) else none,
          last := if o + l < count then some (Nat.repr (count - l)) else none } := by
  have h := getLinks_offsetMode po pl o l count hpo hpl
  have hprev : (if o < l then 0 else o - l) = (if l ≤ o then o - l else 0) := by
    rcases le_or_lt l o with hlo | hlo
    · rw [if_neg (by omega), if_pos hlo]
    · rw [if_pos hlo, if_neg (by omega)]
  rw [Nat.mod_eq_of_lt hov, hprev] at h
  rw [h]
  by_cases h0 : o = 0
  · have hp : po = "0" := hzero.mpr h0
    by_cases hnc : o + l < count
    · have hnc2 : l < count := by omega
      rw [u64_sub_eq (by omega) hcount]
      simp [h0, hp, hnc, hnc2]
    · have hnc2 : ¬ l < count := by omega
      simp [h0, hp, hnc, hnc2]
  · have hp : po ≠ "0" := fun hh => h0 (hzero.mp hh)
    by_cases hnc : o + l < count
    · rw [u64_sub_eq (by omega) hcount]
      simp [h0, hp, hnc]
    · simp [h0, hp, hnc]

/-- Witness for C2 at the spec's example count=10, offset=4, limit=5:
first→0, prev→0 (clamped), next→9, last→5. -/
theorem offsetLimit_links_characterization_witness :
    paginationQueryParams.getLinks ⟨"", "", "4", "5"⟩ 10 =
      GetLinksResult.links ⟨some "0", some "0", some "9", some "5"⟩ := by
  have h := offsetLimit_links_characterization "4" "5" 4 5 10
    (by decide) (by decide) (by decide) (by decide) (by decide)
  rw [h]; decide

/-- C2 counterexample: the raw string "00" parses to offset 0, yet
getLinks emits first and prev, because the code compares the raw string
with "0"; the claim, quantified over the parsed offset o, requires no
first/prev when o = 0. -/
theorem offsetLimit_links_noncanonical_counterexample :
    parseUint10 "00" = some 0 ∧
    paginationQueryParams.getLinks ⟨"", "", "00", "5"⟩ 10 =
      GetLinksResult.links ⟨some "0", some "0", some "5", some "5"⟩ :=
  ⟨by decide, by decide⟩

/-- C4: a valid offset/limit request with limit greater than count for
which getLinks emits a last link carrying the uint64-wrapped value of the
negative difference count - limit (here 2^64 - 1, strictly above count,
while the truncated difference is 0): the code does not special-case
limit > count. -/
theorem offsetLimit_last_underflow_exists :
    ∃ (p : paginationQueryParams) (count o l : Nat) (m : NavLinks),
      p.isValid = true ∧
      parseUint10 p.offset = some o ∧
      parseUint10 p.limit = some l ∧
      count < U64 ∧ count < l ∧
      p.getLinks count = GetLinksResult.links m ∧
      m.last = some (Nat.repr (count + U64 - l)) ∧
      count < count + U64 - l ∧
      count - l = 0 := by
  refine ⟨⟨"", "", "18446744073709551608", "11"⟩, 10, 2 ^ 64 - 8, 11,
    ⟨some "0", some (Nat.repr (2 ^ 64 - 19)), some "3", some (Nat.repr (2 ^ 64 - 1))⟩,
    by decide, by decide, by decide, by decide, by decide, by decide,
    by decide, by decide, by decide⟩

/-- C5 (amended): for every syntactically valid page/size request whose
parsed size is at least 1 the link computation is total (it returns a
link map, with totalPages defined), and for parsed page number n ≥ 1 the
emitted prev page number is n - 1 with no wrap-around; page[size] = "0"
instead panics on division by zero, and page[number] = "0" wraps the
prev number to 2^64 - 1. -/
theorem pageSize_links_total_for_positive_size
    (pn ps : String) (n s count : Nat)
    (hpn : parseUint10 pn = some n) (hps : parseUint10 ps = some s)
    (hs : 1 ≤ s) (hn : 1 ≤ n) :
    ∃ m : NavLinks,
      paginationQueryParams.getLinks ⟨pn, ps, "", ""⟩ count =
        GetLinksResult.links m ∧
      (pn ≠ "1" → m.prev = some (Nat.repr (n - 1))) := by
  have hnlt : n < U64 := parseUint10_lt hpn
  have h := getLinks_pageMode pn ps n s count hpn hps (by omega)
  rw [u64_dec_eq hn hnlt] at h
  refine ⟨_, h, fun hp => ?_⟩
  simp [hp]

/-- Witness for C5 at page number 2, size 10, count 25. -/
theorem pageSize_links_total_witness :
    ∃ m : NavLinks,
      paginationQueryParams.getLinks ⟨"2", "10", "", ""⟩ 25 =
        GetLinksResult.links m ∧
      ("2" ≠ "1" → m.prev = some (Nat.repr (2 - 1))) := by
  exact pageSize_links_total_for_positive_size "2" "10" 2 10 25
    (by decide) (by decide) (by decide) (by decide)

/-- C5 counterexample: page[size] = "0" with page[number] = "1" drives
getLinks into the uint64 division count / 0, which panics at runtime in
Go, so the computation is not total on all parseable inputs. -/
theorem pageSize_zero_size_divides_by_zero :
    paginationQueryParams.getLinks ⟨"1", "0", "", ""⟩ 5 =
      GetLinksResult.divideByZero := by decide

/-- C3: the pagination query parameters are valid iff exactly the
page[number]/page[size] pair is present (offset/limit absent) or exactly
the page[offset]/page[limit] pair is present (number/size absent); every
other combination is invalid and the index request is dispatched as a
plain non-paginated index, requiring `FindAll` and never touching the
`PaginatedFindAll` path. -/
theorem isValid_iff_exact_pair_and_invalid_dispatches_findAll
    (p : paginationQueryParams) (src : DataSource) :
    (p.isValid = true ↔
      ((p.number ≠ "" ∧ p.size ≠ "" ∧ p.offset = "" ∧ p.limit = "") ∨
       (p.number = "" ∧ p.size = "" ∧ p.offset ≠ "" ∧ p.limit ≠ ""))) ∧
    (p.isValid = false →
      handleIndex p src ≠ HandlerResult.paginatedOk ∧
      handleIndex p src ≠
        HandlerResult.httpError "Resource does not implement the PaginatedFindAll interface" 404 ∧
      (src.hasFindAll = true → handleIndex p src = HandlerResult.findAllOk) ∧
      (src.hasFindAll = false → handleIndex p src =
        HandlerResult.httpError "Resource does not implement the FindAll interface" 404)) := by
  obtain ⟨a, b, c, d⟩ := p
  constructor
  · by_cases ha : a = "" <;> by_cases hb : b = "" <;>
      by_cases hc : c = "" <;> by_cases hd : d = "" <;>
      simp [paginationQueryParams.isValid, ha, hb, hc, hd]
  · intro hinv
    simp only [handleIndex, hinv, Bool.false_eq_true, if_false]
    refine ⟨?_, ?_, fun hfa => by simp [hfa], fun hfa => by simp [hfa]⟩
    · cases hfa : src.hasFindAll <;> simp [hfa]
    · cases hfa : src.hasFindAll <;> simp [hfa]

/-- Witness for C3 at a concrete mixed (hence invalid) parameter
combination dispatching to the plain FindAll path. -/
theorem isValid_iff_exact_pair_witness :
    paginationQueryParams.isValid ⟨"1", "2", "3", ""⟩ = false ∧
    handleIndex ⟨"1", "2", "3", ""⟩ ⟨true, false, false⟩ = HandlerResult.findAllOk := by
  have h := isValid_iff_exact_pair_and_invalid_dispatches_findAll
    ⟨"1", "2", "3", ""⟩ ⟨true, false, false⟩
  have hfalse : paginationQueryParams.isValid ⟨"1", "2", "3", ""⟩ = false := by
    rcases hv : paginationQueryParams.isValid ⟨"1", "2", "3", ""⟩ with _ | _
    · rfl
    · exact absurd (h.1.mp hv) (by decide)
  exact ⟨hfalse, (h.2 hfalse).2.2.1 rfl⟩

/-- JSON values as decoded by encoding/json into interface-typed Go data;
the update handler only ever tests whether a value is an object and which
keys it has (Go decodes JSON numbers to float64, but no modelled check
inspects a number, so an integer payload stands in for it). -/
inductive JSONValue where
  | null
  | boolean (b : Bool)
  | number (q : Int)
  | string (s : String)
  | array (xs : List JSONValue)
  | obj (fields : List (String × JSONValue))

/-- Embeds resource.handleUpdate up to the envelope checks.  The handler
first FindOnes the existing object (a failure there is propagated as
srcError), then the already-decoded top-level JSON map ctx (decoding
failures are propagated earlier and are outside this model) is checked:
a missing data member, a non-object data member, or a missing id or type
key each yield a 403 NewHTTPError; only after all checks does the merge
(jsonapi.UnmarshalInto, outside src) and the Update call happen,
abstracted as the updated outcome.  The second component lists the
data-source calls in order. -/
def handleUpdate (findOneFails : Bool) (ctx : List (String × JSONValue)) :
    HandlerResult × List SrcCall :=
  if findOneFails then (.srcError, [.findOne])
  else
    match List.lookup "data" ctx with
    | none => (.httpError "missing mandatory data key." 403, [.findOne])
    | some (JSONValue.obj check) =>
      match List.lookup "id" check with
      | none => (.httpError "missing mandatory id key." 403, [.findOne])
      | some _ =>
        match List.lookup "type" check with
        | none => (.httpError "missing mandatory type key." 403, [.findOne])
        | some _ => (.updated, [.findOne, .update])
    | some _ => (.httpError "data must contain an object." 403, [.findOne])

/-- C6 counterexample: an update body without the data member is rejected
with 403, but FindOne has already been invoked at that point; the claim
states the rejection happens before FindOne is invoked. -/
theorem handleUpdate_findOne_precedes_envelope_check :
    handleUpdate false [] =
      (HandlerResult.httpError "missing mandatory data key." 403, [SrcCall.findOne]) ∧
    SrcCall.findOne ∈ (handleUpdate false []).2 :=
  ⟨rfl, by decide⟩

/-- C6 (amended): an update request whose decoded body has the data member
missing, non-object, or lacking the id or type key fails with HTTP 403
before Update is invoked; FindOne, however, has already been invoked,
because the handler fetches the existing object before validating the
envelope (and a FindOne failure would preempt the 403). -/
theorem handleUpdate_bad_envelope_forbidden_before_update
    (ctx : List (String × JSONValue))
    (hbad : ∀ kvs, List.lookup "data" ctx = some (JSONValue.obj kvs) →
      List.lookup "id" kvs = none ∨ List.lookup "type" kvs = none) :
    (∃ msg, handleUpdate false ctx =
      (HandlerResult.httpError msg 403, [SrcCall.findOne])) ∧
    SrcCall.update ∉ (handleUpdate false ctx).2 ∧
    SrcCall.findOne ∈ (handleUpdate false ctx).2 := by
  cases hd : List.lookup "data" ctx with
  | none =>
    exact ⟨⟨"missing mandatory data key.", by simp [handleUpdate, hd]⟩,
      by simp [handleUpdate, hd], by simp [handleUpdate, hd]⟩
  | some j =>
    cases j with
    | obj kvs =>
      cases hid : List.lookup "id" kvs with
      | none =>
        exact ⟨⟨"missing mandatory id key.", by simp [handleUpdate, hd, hid]⟩,
          by simp [handleUpdate, hd, hid], by simp [handleUpdate, hd, hid]⟩
      | some v =>
        have hty : List.lookup "type" kvs = none := by
          rcases hbad kvs hd with h | h
          · rw [h] at hid; exact Option.noConfusion hid
          · exact h
        exact ⟨⟨"missing mandatory type key.", by simp [handleUpdate, hd, hid, hty]⟩,
          by simp [handleUpdate, hd, hid, hty], by simp [handleUpdate, hd, hid, hty]⟩
    | null =>
      exact ⟨⟨"data must contain an object.", by simp [handleUpdate, hd]⟩,
        by simp [handleUpdate, hd], by simp [handleUpdate, hd]⟩
    | boolean b =>
      exact ⟨⟨"data must contain an object.", by simp [handleUpdate, hd]⟩,
        by simp [handleUpdate, hd], by simp [handleUpdate, hd]⟩
    | number q =>
      exact ⟨⟨"data must contain an object.", by simp [handleUpdate, hd]⟩,
        by simp [handleUpdate, hd], by simp [handleUpdate, hd]⟩
    | string sv =>
      exact ⟨⟨"data must contain an object.", by simp [handleUpdate, hd]⟩,
        by simp [handleUpdate, hd], by simp [handleUpdate, hd]⟩
    | array xs =>
      exact ⟨⟨"data must contain an object.", by simp [handleUpdate, hd]⟩,
        by simp [handleUpdate, hd], by simp [handleUpdate, hd]⟩

/-- Witness for C6 (amended) at the empty decoded body. -/
theorem handleUpdate_bad_envelope_witness :
    (∃ msg, handleUpdate false [] =
      (HandlerResult.httpError msg 403, [SrcCall.findOne])) ∧
    SrcCall.update ∉ (handleUpdate false []).2 ∧
    SrcCall.findOne ∈ (handleUpdate false []).2 :=
  handleUpdate_bad_envelope_forbidden_before_update [] (by simp)

/-- Inbound object decoded by jsonapi.UnmarshalInto for a create request.
getID is some id exactly when the concrete resource type implements
jsonapi's MarshalIdentifier interface (the jsonapi package is part of
this repository but not under src; per the spec it is the marker that an
inbound object carries an identifier), and id is that identifier. -/
structure InboundObject where
  getID : Option String
  deriving DecidableEq

/-- Embeds resource.handleCreate after body decoding: exactly one decoded
object is required (anything else is a plain Go error); an object exposing
a non-empty identifier is rejected with a Forbidden error document whose
Status is Go's string(403) conversion, before Create runs; otherwise
Create runs and the fresh object is re-fetched with FindOne (both
abstracted as succeeding, newID being the identifier Create returns). -/
def handleCreate (newObjs : List InboundObject) (newID : String) :
    HandlerResult × List SrcCall :=
  match newObjs with
  | [newObj] =>
    match newObj.getID with
    | some cid =>
      if cid ≠ "" then
        (.errorDoc { Status := String.mk [Char.ofNat 403], Title := "Forbidden",
                     Detail := "Client generated IDs are not supported." } 403, [])
      else (.created newID, [.create, .findOne])
    | none => (.created newID, [.create, .findOne])
  | _ => (.goError "expected one object in POST", [])

/-- C7: a create request whose single inbound object carries a non-empty
pre-populated identifier is rejected with the Forbidden error document
and HTTP 403, and the data source's Create is never invoked. -/
theorem handleCreate_rejects_client_id
    (o : InboundObject) (newID cid : String)
    (hid : o.getID = some cid) (hne : cid ≠ "") :
    (handleCreate [o] newID).1 =
      HandlerResult.errorDoc
        { Status := String.mk [Char.ofNat 403], Title := "Forbidden",
          Detail := "Client generated IDs are not supported." } 403 ∧
    SrcCall.create ∉ (handleCreate [o] newID).2 := by
  constructor <;> simp [handleCreate, hid, hne]

/-- Witness for C7 at a concrete object with client identifier "42". -/
theorem handleCreate_rejects_client_id_witness :
    (handleCreate [⟨some "42"⟩] "0").1 =
      HandlerResult.errorDoc
        { Status := String.mk [Char.ofNat 403], Title := "Forbidden",
          Detail := "Client generated IDs are not supported." } 403 ∧
    SrcCall.create ∉ (handleCreate [⟨some "42"⟩] "0").2 :=
  handleCreate_rejects_client_id ⟨some "42"⟩ "0" "42" rfl (by decide)

/-- Kinds of Go types distinguished by the reflection checks in api.go
(reflect.Struct for registration, reflect.Ptr and reflect.Slice for
relationship fields; everything else is Other). -/
inductive GoKind where
  | Struct
  | Ptr
  | Slice
  | Other
  deriving DecidableEq

/-- A declared struct field as seen through reflection: its Go name, the
kind of its type, and the name of the element type reached by Elem()
(meaningful for Ptr and Slice fields, which are the only ones whose
element type the code inspects). -/
structure StructField where
  name : String
  kind : GoKind
  elemName : String
  deriving DecidableEq

/-- A Go type as seen through reflection: its name, kind, and declared
fields in declaration order. -/
structure GoType where
  name : String
  kind : GoKind
  fields : List StructField
  deriving DecidableEq

/-- Modelled from the spec: jsonapi.Jsonify (the jsonapi package is part
of this repository but not under src), the JSON:API conventionalization
of a Go identifier; per the spec the registry stores a pluralized
lowercase name, so Jsonify is modelled as lowercasing. -/
def jsonify (s : String) : String := String.mk (s.data.map Char.toLower)

/-- Modelled from the spec: jsonapi.Pluralize (the jsonapi package is
part of this repository but not under src); modelled as appending "s". -/
def pluralize (s : String) : String := s ++ "s"

/-- Embeds the resource struct: the registered prototype type, its bound
data source and the derived pluralized lowercase name. -/
structure resource where
  resourceType : GoType
  source : DataSource
  name : String
  deriving DecidableEq

/-- Embeds API.addResource: panics (none) unless the prototype's kind is
Struct; otherwise derives the name Jsonify(Pluralize(typeName)) and
appends the new resource to api.resources.  No duplicate-name check is
performed by this code; route registration happens on the external
router and is outside the model. -/
def addResource (resources : List resource) (prototype : GoType)
    (source : DataSource) : Option (List resource) :=
  if prototype.kind = GoKind.Struct then
    some (resources ++ [{ resourceType := prototype, source := source,
                          name := jsonify (pluralize prototype.name) }])
  else none

/-- C8 counterexample: registering the same struct prototype twice
succeeds both times and leaves two resources with the same derived name
"posts" in the registry; the claim requires the second registration to
fail. -/
theorem addResource_accepts_duplicate_names :
    (addResource [] ⟨"Post", GoKind.Struct, []⟩ ⟨true, false, false⟩).bind
      (fun rs => addResource rs ⟨"Post", GoKind.Struct, []⟩ ⟨true, false, false⟩) =
    some [⟨⟨"Post", GoKind.Struct, []⟩, ⟨true, false, false⟩, "posts"⟩,
          ⟨⟨"Post", GoKind.Struct, []⟩, ⟨true, false, false⟩, "posts"⟩] := by
  decide

/-- C8 (amended): registration fails (panics) exactly when the supplied
prototype is not a plain struct; a struct prototype is always appended
with its derived pluralized name, with no duplicate-name check, so
duplicate names can coexist in the resource list (duplicate routes are
rejected only by the external router, outside this code). -/
theorem addResource_fails_iff_not_struct
    (resources : List resource) (t : GoType) (src : DataSource) :
    (addResource resources t src = none ↔ t.kind ≠ GoKind.Struct) ∧
    (t.kind = GoKind.Struct →
      ∃ l, addResource resources t src = some l ∧
        l.map resource.name =
          resources.map resource.name ++ [jsonify (pluralize t.name)]) := by
  constructor
  · by_cases hk : t.kind = GoKind.Struct <;> simp [addResource, hk]
  · intro hk
    refine ⟨resources ++ [{ resourceType := t, source := src,
                            name := jsonify (pluralize t.name) }],
      by simp [addResource, hk], by simp⟩

/-- Witness for C8 (amended) at a struct prototype named Post. -/
theorem addResource_fails_iff_not_struct_witness :
    (addResource [] ⟨"Post", GoKind.Struct, []⟩ ⟨true, false, false⟩ = none ↔
      (⟨"Post", GoKind.Struct, []⟩ : GoType).kind ≠ GoKind.Struct) ∧
    (∃ l, addResource [] ⟨"Post", GoKind.Struct, []⟩ ⟨true, false, false⟩ = some l ∧
      l.map resource.name = [jsonify (pluralize "Post")]) := by
  have h := addResource_fails_iff_not_struct [] ⟨"Post", GoKind.Struct, []⟩
    ⟨true, false, false⟩
  exact ⟨h.1, by simpa using h.2 rfl⟩

/-- First (field, registered resource) pair matched by handleLinked's two
nested loops: the owning type's fields are scanned in declaration order
for a pointer-or-slice field whose jsonified name equals the linked path
segment; for such a field the first registered resource whose name equals
the pluralized jsonified element type name is returned; if no resource
matches that field, the outer loop continues with the remaining fields. -/
def findLinkedTarget (resources : List resource) (linked : String) :
    List StructField → Option resource
  | [] => none
  | f :: rest =>
    if (f.kind = GoKind.Ptr ∨ f.kind = GoKind.Slice) ∧ jsonify f.name = linked then
      match resources.find? (fun r => r.name == pluralize (jsonify f.elemName)) with
      | some r => some r
      | none => findLinkedTarget resources linked rest
    else findLinkedTarget resources linked rest

/-- Embeds resource.handleLinked: when a field and a registered resource
match, the target's data source must implement FindAll (otherwise a 404
NewHTTPError is returned); the FindAll invocation is recorded together
with the synthesized query parameter res.name + "ID" ↦ [id]; when nothing
matches, a structured 404 Error document names the requested relation,
its Status being Go's string(404) conversion. -/
def handleLinked (resources : List resource) (own : resource)
    (id linked : String) : HandlerResult :=
  match findLinkedTarget resources linked own.resourceType.fields with
  | some target =>
    if target.source.hasFindAll then
      .findAllInvoked target.name (own.name ++ "ID") [id]
    else .httpError "Resource does not implement the FindAll interface" 404
  | none =>
    .errorDoc { Status := String.mk [Char.ofNat 404], Title := "Not Found",
                Detail := "No resource handler is registered to handle the linked resource "
                  ++ linked } 404

/-- The nested loops of handleLinked find a target exactly when some
pointer-or-slice field matches the linked segment and some registered
resource matches that field's pluralized element type name. -/
lemma findLinkedTarget_isSome_iff (resources : List resource) (linked : String)
    (fields : List StructField) :
    (∃ t, findLinkedTarget resources linked fields = some t) ↔
    ∃ f ∈ fields, (f.kind = GoKind.Ptr ∨ f.kind = GoKind.Slice) ∧
      jsonify f.name = linked ∧
      ∃ r ∈ resources, r.name = pluralize (jsonify f.elemName) := by
  induction fields with
  | nil => simp [findLinkedTarget]
  | cons f rest ih =>
    by_cases hc : (f.kind = GoKind.Ptr ∨ f.kind = GoKind.Slice) ∧ jsonify f.name = linked
    · cases hfind : resources.find? (fun r => r.name == pluralize (jsonify f.elemName)) with
      | some r =>
        have hstep : findLinkedTarget resources linked (f :: rest) = some r := by
          simp [findLinkedTarget, hc, hfind]
        rw [hstep]
        constructor
        · rintro -
          refine ⟨f, List.mem_cons_self f rest, hc.1, hc.2,
            r, List.mem_of_find?_eq_some hfind, ?_⟩
          simpa using List.find?_some hfind
        · rintro -
          exact ⟨r, rfl⟩
      | none =>
        have hnone : ∀ r ∈ resources, ¬ r.name = pluralize (jsonify f.elemName) := by
          intro r hr
          simpa using List.find?_eq_none.mp hfind r hr
        have hstep : findLinkedTarget resources linked (f :: rest) =
            findLinkedTarget resources linked rest := by
          simp [findLinkedTarget, hc, hfind]
        rw [hstep, ih]
        constructor
        · rintro ⟨g, hg, hp⟩
          exact ⟨g, List.mem_cons_of_mem f hg, hp⟩
        · rintro ⟨g, hg, hk, hj, r, hr, hname⟩
          rcases List.mem_cons.mp hg with rfl | hg2
          · exact absurd hname (hnone r hr)
          · exact ⟨g, hg2, hk, hj, r, hr, hname⟩
    · have hstep : findLinkedTarget resources linked (f :: rest) =
          findLinkedTarget resources linked rest := by
        simp only [findLinkedTarget, if_neg hc]
      rw [hstep, ih]
      constructor
      · rintro ⟨g, hg, hp⟩
        exact ⟨g, List.mem_cons_of_mem f hg, hp⟩
      · rintro ⟨g, hg, hk, hj, r, hr, hname⟩
        rcases List.mem_cons.mp hg with rfl | hg2
        · exact absurd ⟨hk, hj⟩ hc
        · exact ⟨g, hg2, hk, hj, r, hr, hname⟩

/-- C9 (amended): a relationship-traversal request resolves a target
exactly when some declared pointer-or-slice field of the owning type has
the linked segment as conventionalized name and a registered resource
matches its pluralized element type name; when the resolved target's data
source implements FindAll, FindAll is invoked with the synthesized query
parameter ownerName + "ID" ↦ [instanceID] (otherwise a 404 capability
error is returned); when nothing resolves, the response is a 404 document
whose detail names the requested relation. -/
theorem handleLinked_resolution
    (resources : List resource) (own : resource) (id linked : String) :
    ((∃ f ∈ own.resourceType.fields,
        (f.kind = GoKind.Ptr ∨ f.kind = GoKind.Slice) ∧
        jsonify f.name = linked ∧
        ∃ r ∈ resources, r.name = pluralize (jsonify f.elemName)) ↔
      ∃ t, findLinkedTarget resources linked own.resourceType.fields = some t) ∧
    (∀ t, findLinkedTarget resources linked own.resourceType.fields = some t →
      t.source.hasFindAll = true →
      handleLinked resources own id linked =
        HandlerResult.findAllInvoked t.name (own.name ++ "ID") [id]) ∧
    (findLinkedTarget resources linked own.resourceType.fields = none →
      handleLinked resources own id linked =
        HandlerResult.errorDoc
          { Status := String.mk [Char.ofNat 404], Title := "Not Found",
            Detail := "No resource handler is registered to handle the linked resource "
              ++ linked } 404) := by
  refine ⟨(findLinkedTarget_isSome_iff resources linked own.resourceType.fields).symm,
    ?_, ?_⟩
  · intro t ht hfa
    simp [handleLinked, ht, hfa]
  · intro hnone
    simp [handleLinked, hnone]

/-- Witness for C9: a posts resource with a slice field Comments resolves
/posts/1/comments to the registered comments resource, whose FindAll is
invoked with the query parameter postsID ↦ ["1"]. -/
theorem handleLinked_resolution_witness :
    handleLinked
      [⟨⟨"Comment", GoKind.Struct, []⟩, ⟨true, false, false⟩, "comments"⟩]
      ⟨⟨"Post", GoKind.Struct, [⟨"Comments", GoKind.Slice, "Comment"⟩]⟩,
        ⟨true, false, false⟩, "posts"⟩
      "1" "comments" =
    HandlerResult.findAllInvoked "comments" ("posts" ++ "ID") ["1"] := by
  exact (handleLinked_resolution
    [⟨⟨"Comment", GoKind.Struct, []⟩, ⟨true, false, false⟩, "comments"⟩]
    ⟨⟨"Post", GoKind.Struct, [⟨"Comments", GoKind.Slice, "Comment"⟩]⟩,
      ⟨true, false, false⟩, "posts"⟩
    "1" "comments").2.1
    ⟨⟨"Comment", GoKind.Struct, []⟩, ⟨true, false, false⟩, "comments"⟩
    (by decide) rfl

/-- C9 counterexample: with a matching field and a matching registered
resource whose data source does not implement FindAll, handleLinked
returns a 404 capability error instead of invoking FindAll, so the
claim's unconditional "FindAll is invoked" fails. -/
theorem handleLinked_no_findAll_counterexample :
    (∃ f ∈ ([⟨"Comments", GoKind.Slice, "Comment"⟩] : List StructField),
      (f.kind = GoKind.Ptr ∨ f.kind = GoKind.Slice) ∧
      jsonify f.name = "comments" ∧
      ∃ r ∈ [(⟨⟨"Comment", GoKind.Struct, []⟩, ⟨false, false, false⟩,
               "comments"⟩ : resource)],
        r.name = pluralize (jsonify f.elemName)) ∧
    handleLinked
      [⟨⟨"Comment", GoKind.Struct, []⟩, ⟨false, false, false⟩, "comments"⟩]
      ⟨⟨"Post", GoKind.Struct, [⟨"Comments", GoKind.Slice, "Comment"⟩]⟩,
        ⟨true, false, false⟩, "posts"⟩
      "1" "comments" =
    HandlerResult.httpError "Resource does not implement the FindAll interface" 404 :=
  ⟨by decide, by decide⟩

/-- C10 (amended): the error documents built for an unresolvable linked
relation and for a create carrying a client identifier have a Status
string that is Go's string(code) conversion, the single Unicode code
point with that value: "Ɣ" (U+0194) for 404 and "Ɠ" (U+0193) for 403,
not the decimal strings "404" and "403". -/
theorem errorDoc_status_is_code_point :
    (∀ (resources : List resource) (own : resource) (id linked : String),
      findLinkedTarget resources linked own.resourceType.fields = none →
      ∃ e, handleLinked resources own id linked = HandlerResult.errorDoc e 404 ∧
        e.Status = String.mk [Char.ofNat 404] ∧ e.Status = "Ɣ" ∧ e.Status ≠ "404") ∧
    (∀ (o : InboundObject) (newID cid : String), o.getID = some cid → cid ≠ "" →
      ∃ e, (handleCreate [o] newID).1 = HandlerResult.errorDoc e 403 ∧
        e.Status = String.mk [Char.ofNat 403] ∧ e.Status = "Ɠ" ∧ e.Status ≠ "403") := by
  constructor
  · intro resources own id linked hnone
    refine ⟨{ Status := String.mk [Char.ofNat 404], Title := "Not Found",
              Detail := "No resource handler is registered to handle the linked resource "
                ++ linked },
      by simp [handleLinked, hnone], rfl,
      by show String.mk [Char.ofNat 404] = "Ɣ"; decide,
      by show String.mk [Char.ofNat 404] ≠ "404"; decide⟩
  · intro o newID cid hid hne
    refine ⟨{ Status := String.mk [Char.ofNat 403], Title := "Forbidden",
              Detail := "Client generated IDs are not supported." },
      by simp [handleCreate, hid, hne], rfl, by decide, by decide⟩

/-- Witness for C10 at an unresolvable relation "tags" and a create with
client identifier "7". -/
theorem errorDoc_status_is_code_point_witness :
    (∃ e, handleLinked []
        ⟨⟨"Post", GoKind.Struct, []⟩, ⟨true, false, false⟩, "posts"⟩ "1" "tags" =
        HandlerResult.errorDoc e 404 ∧
      e.Status = String.mk [Char.ofNat 404] ∧ e.Status = "Ɣ" ∧ e.Status ≠ "404") ∧
    (∃ e, (handleCreate [⟨some "7"⟩] "1").1 = HandlerResult.errorDoc e 403 ∧
      e.Status = String.mk [Char.ofNat 403] ∧ e.Status = "Ɠ" ∧ e.Status ≠ "403") :=
  ⟨errorDoc_status_is_code_point.1 []
      ⟨⟨"Post", GoKind.Struct, []⟩, ⟨true, false, false⟩, "posts"⟩ "1" "tags" rfl,
    errorDoc_status_is_code_point.2 ⟨some "7"⟩ "1" "7" rfl (by decide)⟩

/-- C10 counterexample: the Status of the 404 document for an unresolved
linked relation is "Ɣ" (code point 404), not "Ƥ" (code point 420) as the
claim's parenthetical asserts; likewise the create 403 document carries
"Ɠ" (code point 403), not "ƙ" (code point 409). -/
theorem errorDoc_status_not_claimed_glyphs :
    handleLinked [] ⟨⟨"Post", GoKind.Struct, []⟩, ⟨true, false, false⟩, "posts"⟩
      "1" "tags" =
      HandlerResult.errorDoc
        ⟨"Ɣ", "Not Found",
          "No resource handler is registered to handle the linked resource tags"⟩ 404 ∧
    ("Ɣ" : String) ≠ "Ƥ" ∧
    (handleCreate [⟨some "7"⟩] "1").1 =
      HandlerResult.errorDoc
        ⟨"Ɠ", "Forbidden", "Client generated IDs are not supported."⟩ 403 ∧
    ("Ɠ" : String) ≠ "ƙ" :=
  ⟨by decide, by decide, by decide, by decide⟩
